import Mathlib

/-
Verification of the Viwoods sync tool (viwoods_sync.py).

Shallow embedding of the synchronizer core: the local filesystem and the
SQLite sync ledger are modelled as explicit state, the network is modelled
by explicit outcome values (one per remote call), and the remote folder
tree is modelled as a nested inductive whose listings always deliver the
node's children.  Every stateful Python method of class ViwoodsSync becomes
a pure Lean function threading that state.
-/

namespace Viwoods

/-- File contents: the byte stream is modelled as a list of naturals. -/
abbrev Bytes := List Nat

/-- A filesystem path, as its list of segments (pathlib.Path components
below the mirror root). -/
abbrev Path := List String

/-- The local filesystem visible to the tool: the set of directories that
exist and a map from file path to file contents.  `mkdir` touches only
`dirs`; file operations touch only `files`. -/
structure FS where
  dirs : List Path
  files : List (Path × Bytes)
deriving DecidableEq, Repr

/-- Model of `local_path.mkdir(parents=True, exist_ok=True)`: the path and
all of its ancestors are added to the directory set (duplicates are
harmless, existence is membership). -/
def FS.mkdirAll (fs : FS) (p : Path) : FS :=
  { fs with dirs := p.inits ++ fs.dirs }

/-- Model of `Path.exists()` for a file path. -/
def FS.pathExists (fs : FS) (p : Path) : Bool :=
  (fs.files.find? (fun e => e.1 == p)).isSome

/-- Model of `open(p, 'wb')` followed by writing `b`: truncating write,
replacing any previous contents at `p`. -/
def FS.writeFile (fs : FS) (p : Path) (b : Bytes) : FS :=
  { fs with files := (p, b) :: fs.files.filter (fun e => e.1 != p) }

/-- Model of `p.unlink()`. -/
def FS.removeFile (fs : FS) (p : Path) : FS :=
  { fs with files := fs.files.filter (fun e => e.1 != p) }

/-- Model of `p.stat().st_size`: length of the stored contents (0 when the
file does not exist; the tool only calls it on files it just wrote). -/
def FS.statSize (fs : FS) (p : Path) : Nat :=
  ((fs.files.find? (fun e => e.1 == p)).map (fun e => e.2.length)).getD 0

/-- Contents stored at `p` (empty when absent). -/
def FS.readFile (fs : FS) (p : Path) : Bytes :=
  ((fs.files.find? (fun e => e.1 == p)).map (fun e => e.2)).getD []

/-- One row of the `synced_files` SQLite table (the `file_path` key is held
separately as the association-list key). -/
structure SyncRecord where
  note_id : String
  update_time : Nat
  file_size : Nat
  last_sync : String
  checksum : Bytes
deriving DecidableEq, Repr

/-- The sync ledger: the `synced_files` table, keyed by `file_path`
(at most one row per key, maintained by replace-on-conflict). -/
abbrev Ledger := List (String × SyncRecord)

/-- Model of `SELECT update_time FROM synced_files WHERE file_path = ?`
(`fetchone` on a primary key: the row, if any). -/
def ledgerLookup (db : Ledger) (remote_path : String) : Option SyncRecord :=
  (db.find? (fun e => e.1 == remote_path)).map (fun e => e.2)

/-- Function `is_file_synced` (viwoods_sync.py lines 149-163): true iff a row exists
for `remote_path` and its stored `update_time` is `>=` the incoming one;
no row means never synced, hence false. -/
def is_file_synced (db : Ledger) (remote_path : String) (update_time : Nat) : Bool :=
  match ledgerLookup db remote_path with
  | some r => decide (update_time ≤ r.update_time)
  | none => false

/-- Function `calculate_checksum` (lines 141-147): MD5 of the file contents.  The
digest is modelled as the byte sequence itself (an injective stand-in; the
ledger never reads the checksum back, so only its presence matters). -/
def calculate_checksum (contents : Bytes) : Bytes := contents

/-- Stand-in for `datetime.now().isoformat()`: the wall clock is outside
the model; the `last_sync` column is informational only. -/
def syncNow : String := "now"

/-- Function `record_sync` (lines 165-181): checksum the just-written local file and
`INSERT OR REPLACE` the row keyed by `remote_path`. -/
def record_sync (db : Ledger) (remote_path : String) (note_id : String)
    (update_time : Nat) (file_size : Nat) (local_contents : Bytes) : Ledger :=
  (remote_path,
    { note_id := note_id, update_time := update_time, file_size := file_size,
      last_sync := syncNow, checksum := calculate_checksum local_contents })
    :: db.filter (fun e => e.1 != remote_path)

/-- The `data` field of the `packageFile` JSON envelope: absent, a string,
or some non-string JSON value. -/
inductive RData where
  | missing
  | jstr (s : String)
  | other
deriving DecidableEq, Repr

/-- Outcome of the `packageFile` request: a raised exception (transport
error or unparsable JSON body), or a response with HTTP status, optional
integer `code` field, and `data` field. -/
inductive ResolveOutcome where
  | err
  | resp (status : Nat) (code : Option Int) (data : RData)
deriving DecidableEq, Repr

/-- Outcome of the `/download` request: a raised exception, or a response
with HTTP status and the streamed chunk sequence of `iter_content`. -/
inductive TransferOutcome where
  | err
  | resp (status : Nat) (chunks : List Bytes)
deriving DecidableEq, Repr

/-- Everything the environment decides during one `download_file` call:
the two remote outcomes plus whether opening/writing the local file raises
(e.g. a filesystem error at `open`). -/
structure FetchEnv where
  resolve : ResolveOutcome
  transfer : TransferOutcome
  writeRaises : Bool
deriving DecidableEq, Repr

/-- Model of `file_name.endswith('.note')`: the char sequence `.note` is a
suffix of the name's char sequence. -/
def endsWithNote (s : String) : Bool := ".note".toList.isSuffixOf s.toList

/-- Name normalization shared by lines 82-85 and line 217: append the
`.note` extension when absent. -/
def normName (s : String) : String := if endsWithNote s then s else s ++ ".note"

/-- Function `download_file` (lines 72-139).  Step 1 resolves the server-side path
via `packageFile`; step 2 streams `/download` and writes the chunks; a
zero-length result deletes the file and fails.  All failure paths return
`false`; exceptions are modelled by the `err`/`writeRaises` outcomes and
are converted to `false` exactly where the Python `except` catches them.
Returns the success flag and the filesystem after the call. -/
def download_file (env : FetchEnv) (file_name : String) (_note_id : String)
    (_folder_id : String) (_app_type : String) (fs : FS) (local_path : Path) :
    Bool × FS :=
  let _file_name_with_ext := normName file_name
  match env.resolve with
  | .err => (false, fs)
  | .resp status code data =>
    if status ≠ 200 then (false, fs)
    else if code ≠ some 200 then (false, fs)
    else
      match data with
      | .jstr file_path =>
        if file_path = "" then (false, fs)
        else
          match env.transfer with
          | .err => (false, fs)
          | .resp status2 chunks =>
            if status2 ≠ 200 then (false, fs)
            else
              let fs1 := fs.mkdirAll local_path.dropLast
              if env.writeRaises then (false, fs1)
              else
                let content := chunks.flatten
                let fs2 := fs1.writeFile local_path content
                if content.length = 0 then (false, fs2.removeFile local_path)
                else (true, fs2)
      | _ => (false, fs)

/-- Outcome of the `getChildFolderList` request: a raised exception, or a
response with HTTP status and body; the body is `none` when `.json()`
raises, otherwise the optional `code` field and the optional `data` list. -/
inductive ListOutcome (entry : Type) where
  | err
  | resp (status : Nat) (body : Option (Option Int × Option (List entry)))
deriving DecidableEq, Repr

/-- Function `list_folder` (lines 51-70): returns `data.get('data', [])` when HTTP
status and result code are both 200, and `[]` on every failure path (the
`except` swallows exceptions). -/
def list_folder {entry : Type} (o : ListOutcome entry) : List entry :=
  match o with
  | .err => []
  | .resp status body =>
    if status = 200 then
      match body with
      | none => []
      | some (code, data) => if code = some 200 then data.getD [] else []
    else []

/-- One entry of a remote directory listing, together with the part of the
remote the entry gives access to: a folder entry carries the children that
`list_folder` would deliver for it, a file entry carries the environment
outcomes of its `download_file` call.  Fields mirror `fileName`,
`noteId`, `updateTime` as read at lines 197-200. -/
inductive Item where
  | folder (fileName : String) (noteId : String) (updateTime : Nat)
      (children : List Item)
  | file (fileName : String) (noteId : String) (updateTime : Nat)
      (env : FetchEnv)

/-- A top-level entry of the root listing (`list_folder('root', 'Home', '')`),
with its `appType` (`none` models a missing field) and its subtree. -/
structure RootItem where
  fileName : String
  appType : Option String
  items : List Item

/-- The four run counters (line 258). -/
structure Stats where
  folders : Nat
  downloaded : Nat
  skipped : Nat
  failed : Nat
deriving DecidableEq, Repr

/-- The mutable state a sync run threads: filesystem, ledger, counters,
plus two observation logs — the remote identifiers for which
`download_file` was invoked, and the `(appType, folderName, folderId)`
triples for which `getChildFolderList` was requested. -/
structure SyncState where
  fs : FS
  ledger : Ledger
  stats : Stats
  fetchLog : List String
  listLog : List (String × String × String)
deriving DecidableEq, Repr

/-- The composite tracking identity of line 221:
`f"{app_type}/{folder_id}/{note_id}/{file_name}"` with the normalized
file name. -/
def remoteIdent (app_type folder_id note_id item_name : String) : String :=
  app_type ++ "/" ++ folder_id ++ "/" ++ note_id ++ "/" ++ normName item_name

/-- The file branch of `sync_folder_recursive` (lines 216-239): skip when
the ledger says up to date and the mirror file exists; otherwise invoke
`download_file` and, on success, `record_sync` the entry, else count a
failure. -/
def syncFile (app_type folder_id : String) (local_path : Path)
    (item_name note_id : String) (update_time : Nat) (env : FetchEnv)
    (s : SyncState) : SyncState :=
  let file_name := normName item_name
  let local_file_path := local_path ++ [file_name]
  let remote_identifier := remoteIdent app_type folder_id note_id item_name
  if is_file_synced s.ledger remote_identifier update_time
      && s.fs.pathExists local_file_path then
    { s with stats := { s.stats with skipped := s.stats.skipped + 1 } }
  else
    let s1 := { s with fetchLog := s.fetchLog ++ [remote_identifier] }
    let r := download_file env item_name note_id folder_id app_type s1.fs
      local_file_path
    if r.1 then
      let file_size := r.2.statSize local_file_path
      { s1 with
        fs := r.2,
        ledger := record_sync s1.ledger remote_identifier note_id update_time
          file_size (r.2.readFile local_file_path),
        stats := { s1.stats with downloaded := s1.stats.downloaded + 1 } }
    else
      { s1 with
        fs := r.2,
        stats := { s1.stats with failed := s1.stats.failed + 1 } }

mutual

/-- The `for item in items` loop sequencing of lines 196-239. -/
def syncItems (app_type folder_id : String) (local_path : Path)
    (items : List Item) (s : SyncState) : SyncState :=
  match items with
  | [] => s
  | it :: rest =>
    syncItems app_type folder_id local_path rest
      (syncItem app_type folder_id local_path it s)

/-- One loop iteration: a folder entry bumps the folder counter and
recurses via `sync_folder_recursive` with the entry's `noteId` as new
folder id (lines 202-214; the recursive call's body — mkdir, listing, loop
— is inlined here so that the recursion is structural, see
`syncItem_folder_eq`); a file entry runs the skip-or-fetch branch. -/
def syncItem (app_type folder_id : String) (local_path : Path)
    (it : Item) (s : SyncState) : SyncState :=
  match it with
  | .folder item_name note_id _ children =>
    let s1 := { s with stats := { s.stats with folders := s.stats.folders + 1 } }
    let s2 := { s1 with
      fs := s1.fs.mkdirAll (local_path ++ [item_name]),
      listLog := s1.listLog ++ [(app_type, item_name, note_id)] }
    syncItems app_type note_id (local_path ++ [item_name]) children s2
  | .file item_name note_id update_time env =>
    syncFile app_type folder_id local_path item_name note_id update_time env s

end

/-- Function `sync_folder_recursive` (lines 183-239): create the local directory,
list the folder (logged; in the tree model the listing delivers `items`),
then process each entry in order.  The code's early return on an empty
listing is behaviorally the empty loop. -/
def sync_folder_recursive (app_type folder_name folder_id : String)
    (local_path : Path) (items : List Item) (s : SyncState) : SyncState :=
  let s1 := { s with
    fs := s.fs.mkdirAll local_path,
    listLog := s.listLog ++ [(app_type, folder_name, folder_id)] }
  syncItems app_type folder_id local_path items s1

/-- The allow-list of line 250. -/
def default_folders : List String := ["Paper", "Daily", "Meeting", "Memo"]

/-- The root loop of `sync_all` (lines 270-290): a top-level entry outside
the allow-list is skipped entirely (unless `include_all`); otherwise its
subtree is synchronized starting at folder id `''`. -/
def syncRoots (include_all : Bool) (local_dir : Path)
    (roots : List RootItem) (s : SyncState) : SyncState :=
  match roots with
  | [] => s
  | r :: rest =>
    let root_name := r.fileName
    let app_type := r.appType.getD "APP_PAPER"
    if !include_all && !(default_folders.contains root_name) then
      syncRoots include_all local_dir rest s
    else
      syncRoots include_all local_dir rest
        (sync_folder_recursive app_type root_name "" (local_dir ++ [root_name])
          r.items s)

/-- Function `sync_all` (lines 241-304): list the root container (logged), then run
the root loop over its entries. -/
def sync_all (include_all : Bool) (local_dir : Path) (roots : List RootItem)
    (s : SyncState) : SyncState :=
  syncRoots include_all local_dir roots
    { s with listLog := s.listLog ++ [("root", "Home", "")] }

/-- Model of `folder_path.split('/')` (Python `str.split` with an explicit
separator: no collapsing, `'' → ['']`). -/
def splitSlash (p : String) : List String :=
  (p.toList.splitOn '/').map (fun cs => String.mk cs)

/-- The segment search of lines 350-356: first entry of the current level
whose `fileName` matches and which is a folder; yields its `noteId` and
(in the tree model) the listing it leads to. -/
def findFolder (items : List Item) (seg : String) : Option (String × List Item) :=
  match items with
  | [] => none
  | .folder n nid _ ch :: rest =>
    if n == seg then some (nid, ch) else findFolder rest seg
  | .file _ _ _ _ :: rest => findFolder rest seg

/-- The navigation loop of lines 344-360 over the segments after the first:
each found segment triggers one further listing (logged); a missing
segment aborts at once with no further listing. -/
def navLoop (app_type : String) (segs : List String) (fid : Option String)
    (items : List Item) (s : SyncState) :
    Option (Option String × List Item) × SyncState :=
  match segs with
  | [] => (some (fid, items), s)
  | seg :: rest =>
    match findFolder items seg with
    | none => (none, s)
    | some (nid, ch) =>
      navLoop app_type rest (some nid) ch
        { s with listLog := s.listLog ++ [(app_type, seg, nid)] }

/-- Function `sync_folder` (lines 306-372): split the path, look up the root entry's
`appType` (aborting when absent or falsy), list the first segment, resolve
the remaining segments, then synchronize the final folder; every abort
happens before any fetch or local mkdir. -/
def sync_folder (roots : List RootItem) (local_dir : Path)
    (folder_path : String) (s : SyncState) : SyncState :=
  let parts := splitSlash folder_path
  match parts with
  | [] => s
  | root_name :: restSegs =>
    let rootLog := { s with listLog := s.listLog ++ [("root", "Home", "")] }
    match roots.find? (fun r => r.fileName == root_name) with
    | none => rootLog
    | some root =>
      match root.appType with
      | none => rootLog
      | some app_type =>
        if app_type = "" then rootLog
        else
          let s1 := { rootLog with
            listLog := rootLog.listLog ++ [(app_type, root_name, "")] }
          match navLoop app_type restSegs none root.items s1 with
          | (none, s2) => s2
          | (some (fid, items), s2) =>
            sync_folder_recursive app_type (parts.getLastD "")
              (fid.getD "") (local_dir ++ parts) items s2

/-- Predicate: the resolve step of `download_file` fails (transport or JSON
exception, non-200 status, non-200 code, or a missing/non-string/empty
resolved path). -/
def resolveStepFails (e : FetchEnv) : Bool :=
  match e.resolve with
  | .err => true
  | .resp status code data =>
    (status != 200) || (code != some 200) ||
      (match data with
       | .jstr s => s == ""
       | _ => true)

/-- Predicate: the transfer step returned a response with non-200 status. -/
def transferBadStatus (e : FetchEnv) : Bool :=
  match e.transfer with
  | .err => false
  | .resp status _ => status != 200

/-- The byte sequence `download_file` would write for this environment:
the concatenation of the streamed chunks (Python skips falsy chunks, which
contribute nothing to the concatenation). -/
def FetchEnv.content (e : FetchEnv) : Bytes :=
  match e.transfer with
  | .err => []
  | .resp _ chunks => chunks.flatten

/-- Predicate: this environment makes `download_file` succeed — resolve
delivers a non-empty string path with status and code 200, the transfer
has status 200 and a non-empty byte stream, and the local write does not
raise. -/
def FetchEnv.ok (e : FetchEnv) : Bool :=
  !resolveStepFails e &&
    (match e.transfer with
     | .err => false
     | .resp status chunks => (status == 200) && (chunks.flatten != ([] : Bytes))) &&
    !e.writeRaises

/-- One file of the remote tree in its traversal context: its composite
tracking identity, its `updateTime`, its local mirror path, and the fetch
environment it would see. -/
structure FileSpec where
  ident : String
  ut : Nat
  dst : Path
  env : FetchEnv

mutual

/-- All files below one listing entry, with the traversal context
(`folder_id`, local path) the synchronizer would give them. -/
def filesOfItem (app_type folder_id : String) (local_path : Path)
    (it : Item) : List FileSpec :=
  match it with
  | .folder item_name note_id _ children =>
    filesOfItems app_type note_id (local_path ++ [item_name]) children
  | .file item_name note_id update_time env =>
    [{ ident := remoteIdent app_type folder_id note_id item_name,
       ut := update_time,
       dst := local_path ++ [normName item_name],
       env := env }]

/-- All files below a listing, in traversal order. -/
def filesOfItems (app_type folder_id : String) (local_path : Path)
    (items : List Item) : List FileSpec :=
  match items with
  | [] => []
  | it :: rest =>
    filesOfItem app_type folder_id local_path it ++
      filesOfItems app_type folder_id local_path rest

end

/-- Invariant after a successful sync of a file: the skip test of line 223
passes — the ledger row says up to date and the mirror file exists. -/
def fileSynced (s : SyncState) (f : FileSpec) : Prop :=
  is_file_synced s.ledger f.ident f.ut = true ∧ s.fs.pathExists f.dst = true

/-- Frame property of a traversal step: files on disk persist, and ledger
rows whose key is outside `ids` are untouched. -/
def preservesOutside (ids : List String) (s s' : SyncState) : Prop :=
  (∀ p : Path, s.fs.pathExists p = true → s'.fs.pathExists p = true) ∧
  (∀ id : String, id ∉ ids → ledgerLookup s'.ledger id = ledgerLookup s.ledger id)

/-- A run's starting state (line 258: fresh zero counters) over a given
filesystem and ledger. -/
def freshState (fs : FS) (led : Ledger) : SyncState :=
  { fs := fs, ledger := led, stats := ⟨0, 0, 0, 0⟩, fetchLog := [], listLog := [] }

/-- One full run of `sync_folder_recursive` started on fresh counters. -/
def runSync (app_type folder_name folder_id : String) (local_path : Path)
    (items : List Item) (fs : FS) (led : Ledger) : SyncState :=
  sync_folder_recursive app_type folder_name folder_id local_path items
    (freshState fs led)

/-! Concrete inputs used to instantiate the claim theorems. -/

/-- A fetch environment on which every step succeeds (one 1-byte chunk). -/
def envOkA : FetchEnv :=
  { resolve := .resp 200 (some 200) (.jstr "/a"),
    transfer := .resp 200 [[1]], writeRaises := false }

/-- A second all-success fetch environment (two bytes). -/
def envOkB : FetchEnv :=
  { resolve := .resp 200 (some 200) (.jstr "/b"),
    transfer := .resp 200 [[2, 3]], writeRaises := false }

/-- A fetch environment whose transfer succeeds with status 200 but streams
only empty chunks: the empty-but-200 response. -/
def envZeroByte : FetchEnv :=
  { resolve := .resp 200 (some 200) (.jstr "/z"),
    transfer := .resp 200 [[], []], writeRaises := false }

/-- A fetch environment whose resolve request raises. -/
def envResolveErr : FetchEnv :=
  { resolve := .err, transfer := .resp 200 [[1]], writeRaises := false }

/-- A small remote tree: one subfolder holding one file, plus a top-level
file, with distinct note ids. -/
def itemsW : List Item :=
  [.folder "Papers" "F1" 0 [.file "ideas" "N1" 100 envOkA],
   .file "todo" "N2" 7 envOkB]

/-- The empty local filesystem. -/
def fsEmpty : FS := { dirs := [], files := [] }

/-- A fresh state over an empty mirror and empty ledger. -/
def stEmpty : SyncState := freshState fsEmpty []

/-- A filesystem already holding a previously synced mirror file. -/
def fsExist : FS := { dirs := [], files := [(["d", "ideas.note"], [9])] }

/-- A ledger holding a stale record (update time 3) for that file. -/
def ledStale : Ledger :=
  [(remoteIdent "A" "F" "N1" "ideas",
    { note_id := "N1", update_time := 3, file_size := 1,
      last_sync := "t", checksum := [9] })]

/-- A state where the mirror file exists but the ledger record is stale. -/
def stExist : SyncState :=
  { fs := fsExist, ledger := ledStale, stats := ⟨0, 0, 0, 0⟩,
    fetchLog := [], listLog := [] }

/-- A root entry on the allow-list. -/
def paperRoot : RootItem :=
  { fileName := "Paper", appType := some "APP_PAPER",
    items := [.file "ideas" "N1" 100 envOkA] }

/-- A root entry outside the allow-list. -/
def learningRoot : RootItem :=
  { fileName := "Learning", appType := some "APP_LEARNING",
    items := [.file "x" "N9" 1 envOkA] }

/-- A root listing for the scoped-sync scenario: `Paper` contains one
subfolder `Papers` and nothing named `Nope`. -/
def rootsW : List RootItem :=
  [{ fileName := "Paper", appType := some "APP_PAPER",
     items := [.folder "Papers" "F1" 0 []] }]

/-! Association-list lemmas shared by the filesystem and the ledger. -/

theorem find?_key_filter_ne {α β : Type} [BEq α] [LawfulBEq α]
    (l : List (α × β)) (p q : α) (h : q ≠ p) :
    (l.filter (fun e => e.1 != p)).find? (fun e => e.1 == q)
      = l.find? (fun e => e.1 == q) := by
  induction l with
  | nil => rfl
  | cons a t ih =>
    by_cases hap : a.1 = p
    · have h1 : (a.1 != p) = false := by simp [hap]
      have h2 : (a.1 == q) = false := by
        simp only [beq_eq_false_iff_ne]
        exact fun hh => h (hh ▸ hap)
      simp [List.filter_cons, h1, List.find?_cons, h2, ih]
    · have h1 : (a.1 != p) = true := by simp [hap]
      by_cases haq : a.1 = q
      · have h2 : (a.1 == q) = true := by simp [haq]
        simp [List.filter_cons, h1, List.find?_cons, h2]
      · have h2 : (a.1 == q) = false := by simp [haq]
        simp [List.filter_cons, h1, List.find?_cons, h2, ih]

theorem find?_key_filter_self {α β : Type} [BEq α] [LawfulBEq α]
    (l : List (α × β)) (p : α) :
    (l.filter (fun e => e.1 != p)).find? (fun e => e.1 == p) = none := by
  induction l with
  | nil => rfl
  | cons a t ih =>
    by_cases hap : a.1 = p
    · have h1 : (a.1 != p) = false := by simp [hap]
      simp [List.filter_cons, h1, ih]
    · have h1 : (a.1 != p) = true := by simp [hap]
      have h2 : (a.1 == p) = false := by simp [hap]
      simp [List.filter_cons, h1, List.find?_cons, h2, ih]

/-! Filesystem lemmas. -/

theorem pathExists_mkdirAll (fs : FS) (q p : Path) :
    (fs.mkdirAll q).pathExists p = fs.pathExists p := rfl

theorem pathExists_writeFile_self (fs : FS) (p : Path) (b : Bytes) :
    (fs.writeFile p b).pathExists p = true := by
  simp [FS.writeFile, FS.pathExists, List.find?_cons]

theorem pathExists_writeFile_ne (fs : FS) (p : Path) (b : Bytes) (q : Path)
    (h : q ≠ p) : (fs.writeFile p b).pathExists q = fs.pathExists q := by
  have h2 : ((p, b).1 == q) = false := by
    simp only [beq_eq_false_iff_ne]
    exact fun hh => h hh.symm
  simp [FS.writeFile, FS.pathExists, List.find?_cons, h2,
    find?_key_filter_ne fs.files p q h]

theorem pathExists_writeFile_mono (fs : FS) (p : Path) (b : Bytes) (q : Path)
    (h : fs.pathExists q = true) : (fs.writeFile p b).pathExists q = true := by
  by_cases hq : q = p
  · subst hq; exact pathExists_writeFile_self fs q b
  · rw [pathExists_writeFile_ne fs p b q hq]; exact h

theorem pathExists_removeFile_self (fs : FS) (p : Path) :
    (fs.removeFile p).pathExists p = false := by
  simp [FS.removeFile, FS.pathExists, find?_key_filter_self fs.files p]

/-! Ledger lemmas. -/

theorem ledgerLookup_record_self (db : Ledger) (rp nid : String)
    (ut sz : Nat) (c : Bytes) :
    ledgerLookup (record_sync db rp nid ut sz c) rp =
      some { note_id := nid, update_time := ut, file_size := sz,
             last_sync := syncNow, checksum := calculate_checksum c } := by
  simp [record_sync, ledgerLookup, List.find?_cons]

theorem ledgerLookup_record_ne (db : Ledger) (rp nid : String)
    (ut sz : Nat) (c : Bytes) (q : String) (h : q ≠ rp) :
    ledgerLookup (record_sync db rp nid ut sz c) q = ledgerLookup db q := by
  have h2 : (rp == q) = false := by
    simp only [beq_eq_false_iff_ne]
    exact fun hh => h hh.symm
  simp [record_sync, ledgerLookup, List.find?_cons, h2,
    find?_key_filter_ne db rp q h]

theorem is_file_synced_iff (db : Ledger) (rp : String) (ut : Nat) :
    is_file_synced db rp ut = true ↔
      ∃ r, ledgerLookup db rp = some r ∧ ut ≤ r.update_time := by
  cases h : ledgerLookup db rp <;> simp [is_file_synced, h]

theorem is_file_synced_none (db : Ledger) (rp : String) (ut : Nat)
    (h : ledgerLookup db rp = none) : is_file_synced db rp ut = false := by
  simp [is_file_synced, h]

/-! Characterizations of `download_file` by environment shape. -/

theorem resolve_ok_shape (e : FetchEnv) (h : resolveStepFails e = false) :
    ∃ s, e.resolve = .resp 200 (some 200) (.jstr s) ∧ s ≠ "" := by
  obtain ⟨res, tr, wr⟩ := e
  cases res with
  | err => simp [resolveStepFails] at h
  | resp st code data =>
    cases data with
    | jstr s =>
      simp only [resolveStepFails, Bool.or_eq_false_iff, bne_eq_false_iff_eq,
        beq_eq_false_iff_ne] at h
      exact ⟨s, by rw [h.1.1, h.1.2], h.2⟩
    | missing => simp [resolveStepFails] at h
    | other => simp [resolveStepFails] at h

theorem download_file_resolveFail (e : FetchEnv) (n nid fid ap : String)
    (fs : FS) (p : Path) (h : resolveStepFails e = true) :
    download_file e n nid fid ap fs p = (false, fs) := by
  obtain ⟨res, tr, wr⟩ := e
  cases res with
  | err => rfl
  | resp st code data =>
    cases data with
    | jstr s =>
      simp only [resolveStepFails, Bool.or_eq_true, bne_iff_ne, beq_iff_eq] at h
      rcases h with (h | h) | h
      · simp [download_file, h]
      · simp [download_file, h]
      · by_cases h1 : st = 200
        · by_cases h2 : code = some 200
          · simp [download_file, h1, h2, h]
          · simp [download_file, h2]
        · simp [download_file, h1]
    | missing =>
      by_cases h1 : st = 200
      · by_cases h2 : code = some 200
        · simp [download_file, h1, h2]
        · simp [download_file, h2]
      · simp [download_file, h1]
    | other =>
      by_cases h1 : st = 200
      · by_cases h2 : code = some 200
        · simp [download_file, h1, h2]
        · simp [download_file, h2]
      · simp [download_file, h1]

theorem download_file_transferBad (e : FetchEnv) (n nid fid ap : String)
    (fs : FS) (p : Path) (h : transferBadStatus e = true) :
    download_file e n nid fid ap fs p = (false, fs) := by
  by_cases hr : resolveStepFails e = true
  · exact download_file_resolveFail e n nid fid ap fs p hr
  · obtain ⟨s, hres, hs⟩ := resolve_ok_shape e (by simpa using hr)
    obtain ⟨res, tr, wr⟩ := e
    cases tr with
    | err => simp [transferBadStatus] at h
    | resp st2 chunks =>
      simp only [transferBadStatus, bne_iff_ne] at h
      simp only at hres
      subst hres
      simp [download_file, hs, h]

theorem download_file_exc (e : FetchEnv) (n nid fid ap : String)
    (fs : FS) (p : Path)
    (h : e.resolve = .err ∨ e.transfer = .err ∨ e.writeRaises = true) :
    (download_file e n nid fid ap fs p).1 = false := by
  by_cases hr : resolveStepFails e = true
  · rw [download_file_resolveFail e n nid fid ap fs p hr]
  · obtain ⟨s, hres, hs⟩ := resolve_ok_shape e (by simpa using hr)
    by_cases ht : transferBadStatus e = true
    · rw [download_file_transferBad e n nid fid ap fs p ht]
    · obtain ⟨res, tr, wr⟩ := e
      simp only at hres
      subst hres
      rcases h with h | h | h
      · exact absurd h (by simp)
      · simp only at h
        subst h
        simp [download_file, hs]
      · simp only at h
        subst h
        cases tr with
        | err => simp [download_file, hs]
        | resp st2 chunks =>
          simp only [transferBadStatus, bne_iff_ne, Decidable.not_not] at ht
          simp [download_file, hs, ht]

theorem download_file_ok (e : FetchEnv) (n nid fid ap : String)
    (fs : FS) (p : Path) (h : e.ok = true) :
    download_file e n nid fid ap fs p =
      (true, (fs.mkdirAll p.dropLast).writeFile p e.content) ∧
      e.content ≠ [] := by
  obtain ⟨hr, ht, hw⟩ : resolveStepFails e = false ∧
      (match e.transfer with
       | .err => false
       | .resp status chunks =>
           (status == 200) && (chunks.flatten != ([] : Bytes))) = true ∧
      e.writeRaises = false := by
    have := h
    simp only [FetchEnv.ok, Bool.and_eq_true, Bool.not_eq_true'] at this
    exact ⟨this.1.1, this.1.2, this.2⟩
  obtain ⟨s, hres, hs⟩ := resolve_ok_shape e hr
  obtain ⟨res, tr, wr⟩ := e
  simp only at hres hw
  subst hres
  subst hw
  cases tr with
  | err => simp at ht
  | resp st2 chunks =>
    simp only [Bool.and_eq_true, beq_iff_eq, bne_iff_ne] at ht
    obtain ⟨hst2, hfl⟩ := ht
    subst hst2
    have hlen : ¬((List.map List.length chunks).sum = 0) := by
      intro hh
      apply hfl
      have hl : chunks.flatten.length = 0 := by simpa using hh
      exact List.length_eq_zero.mp hl
    refine ⟨?_, hfl⟩
    simp [download_file, hs, FetchEnv.content, hlen]

theorem download_file_zero (e : FetchEnv) (n nid fid ap : String)
    (fs : FS) (p : Path) (chunks : List Bytes)
    (h1 : resolveStepFails e = false) (h2 : e.transfer = .resp 200 chunks)
    (h3 : chunks.flatten = []) (h4 : e.writeRaises = false) :
    download_file e n nid fid ap fs p =
      (false, ((fs.mkdirAll p.dropLast).writeFile p []).removeFile p) := by
  obtain ⟨s, hres, hs⟩ := resolve_ok_shape e h1
  obtain ⟨res, tr, wr⟩ := e
  simp only at hres h2 h4
  subst hres
  subst h2
  subst h4
  simp [download_file, hs, h3]

/-! Branch characterizations of the per-file step. -/

theorem syncFile_skip (app_type folder_id : String) (lp : Path)
    (item_name note_id : String) (ut : Nat) (env : FetchEnv) (s : SyncState)
    (h : (is_file_synced s.ledger (remoteIdent app_type folder_id note_id item_name) ut
        && s.fs.pathExists (lp ++ [normName item_name])) = true) :
    syncFile app_type folder_id lp item_name note_id ut env s =
      { s with stats := { s.stats with skipped := s.stats.skipped + 1 } } := by
  simp only [syncFile]
  rw [if_pos h]

theorem syncFile_fetch_success (app_type folder_id : String) (lp : Path)
    (item_name note_id : String) (ut : Nat) (env : FetchEnv) (s : SyncState)
    (fs' : FS)
    (h : (is_file_synced s.ledger (remoteIdent app_type folder_id note_id item_name) ut
        && s.fs.pathExists (lp ++ [normName item_name])) = false)
    (hdl : download_file env item_name note_id folder_id app_type s.fs
        (lp ++ [normName item_name]) = (true, fs')) :
    syncFile app_type folder_id lp item_name note_id ut env s =
      { s with
        fs := fs',
        ledger := record_sync s.ledger
          (remoteIdent app_type folder_id note_id item_name) note_id ut
          (fs'.statSize (lp ++ [normName item_name]))
          (fs'.readFile (lp ++ [normName item_name])),
        stats := { s.stats with downloaded := s.stats.downloaded + 1 },
        fetchLog := s.fetchLog ++
          [remoteIdent app_type folder_id note_id item_name] } := by
  simp only [syncFile]
  rw [if_neg (by simp [h])]
  simp only [hdl]
  simp

theorem syncFile_fetch_fail (app_type folder_id : String) (lp : Path)
    (item_name note_id : String) (ut : Nat) (env : FetchEnv) (s : SyncState)
    (h : (is_file_synced s.ledger (remoteIdent app_type folder_id note_id item_name) ut
        && s.fs.pathExists (lp ++ [normName item_name])) = false)
    (hdl : (download_file env item_name note_id folder_id app_type s.fs
        (lp ++ [normName item_name])).1 = false) :
    syncFile app_type folder_id lp item_name note_id ut env s =
      { s with
        fs := (download_file env item_name note_id folder_id app_type s.fs
          (lp ++ [normName item_name])).2,
        stats := { s.stats with failed := s.stats.failed + 1 },
        fetchLog := s.fetchLog ++
          [remoteIdent app_type folder_id note_id item_name] } := by
  simp only [syncFile]
  rw [if_neg (by simp [h])]
  simp only [hdl]
  simp

/-! Frame lemmas for the traversal. -/

theorem preservesOutside_refl (ids : List String) (s : SyncState) :
    preservesOutside ids s s :=
  ⟨fun _ h => h, fun _ _ => rfl⟩

theorem preservesOutside_trans (ids : List String) (s1 s2 s3 : SyncState)
    (h1 : preservesOutside ids s1 s2) (h2 : preservesOutside ids s2 s3) :
    preservesOutside ids s1 s3 :=
  ⟨fun p hp => h2.1 p (h1.1 p hp),
   fun id hid => (h2.2 id hid).trans (h1.2 id hid)⟩

theorem preservesOutside_mono (ids ids' : List String) (s s' : SyncState)
    (hsub : ∀ x ∈ ids, x ∈ ids') (h : preservesOutside ids s s') :
    preservesOutside ids' s s' :=
  ⟨h.1, fun id hid => h.2 id (fun hin => hid (hsub id hin))⟩

theorem preservesOutside_of_same (ids : List String) (s s' : SyncState)
    (h1 : s'.fs.files = s.fs.files) (h2 : s'.ledger = s.ledger) :
    preservesOutside ids s s' :=
  ⟨fun p hp => by simpa [FS.pathExists, h1] using hp,
   fun id _ => by rw [h2]⟩

theorem is_file_synced_congr (db1 db2 : Ledger) (rp : String) (ut : Nat)
    (h : ledgerLookup db1 rp = ledgerLookup db2 rp) :
    is_file_synced db1 rp ut = is_file_synced db2 rp ut := by
  simp [is_file_synced, h]

theorem pathExists_congr (fs1 fs2 : FS) (p : Path) (h : fs1.files = fs2.files) :
    fs1.pathExists p = fs2.pathExists p := by
  simp [FS.pathExists, h]

theorem fileSynced_congr (s s' : SyncState) (f : FileSpec)
    (h1 : s'.ledger = s.ledger) (h2 : s'.fs.files = s.fs.files)
    (h : fileSynced s f) : fileSynced s' f :=
  ⟨by rw [is_file_synced_congr s'.ledger s.ledger f.ident f.ut (by rw [h1])]
      exact h.1,
   by rw [pathExists_congr s'.fs s.fs f.dst h2]
      exact h.2⟩

theorem fileSynced_of_preserves (ids : List String) (s s' : SyncState)
    (f : FileSpec) (hpres : preservesOutside ids s s')
    (hnot : f.ident ∉ ids) (h : fileSynced s f) : fileSynced s' f :=
  ⟨by rw [is_file_synced_congr s'.ledger s.ledger f.ident f.ut
        (hpres.2 f.ident hnot)]
      exact h.1,
   hpres.1 f.dst h.2⟩

mutual

theorem preserves_item (app_type folder_id : String) (lp : Path) (it : Item)
    (s : SyncState)
    (hok : ∀ f ∈ filesOfItem app_type folder_id lp it, f.env.ok = true) :
    preservesOutside ((filesOfItem app_type folder_id lp it).map FileSpec.ident)
      s (syncItem app_type folder_id lp it s) := by
  cases it with
  | folder item_name note_id ut children =>
    have hok' : ∀ f ∈ filesOfItems app_type note_id (lp ++ [item_name]) children,
        f.env.ok = true := by
      simpa [filesOfItem] using hok
    have hrec := preserves_items app_type note_id (lp ++ [item_name]) children
      { fs := (s.fs.mkdirAll (lp ++ [item_name])),
        ledger := s.ledger,
        stats := { s.stats with folders := s.stats.folders + 1 },
        fetchLog := s.fetchLog,
        listLog := s.listLog ++ [(app_type, item_name, note_id)] } hok'
    have hstep : preservesOutside
        ((filesOfItems app_type note_id (lp ++ [item_name]) children).map
          FileSpec.ident) s
        { fs := (s.fs.mkdirAll (lp ++ [item_name])),
          ledger := s.ledger,
          stats := { s.stats with folders := s.stats.folders + 1 },
          fetchLog := s.fetchLog,
          listLog := s.listLog ++ [(app_type, item_name, note_id)] } :=
      preservesOutside_of_same _ s _ rfl rfl
    have hcomb := preservesOutside_trans _ s _ _ hstep hrec
    simpa [syncItem, filesOfItem] using hcomb
  | file item_name note_id ut env =>
    have henv : env.ok = true := by
      have := hok { ident := remoteIdent app_type folder_id note_id item_name,
                    ut := ut, dst := lp ++ [normName item_name], env := env }
      simp [filesOfItem] at this
      exact this
    show preservesOutside _ s (syncFile app_type folder_id lp item_name note_id ut env s)
    by_cases hskip :
        (is_file_synced s.ledger (remoteIdent app_type folder_id note_id item_name) ut
          && s.fs.pathExists (lp ++ [normName item_name])) = true
    · rw [syncFile_skip app_type folder_id lp item_name note_id ut env s hskip]
      exact preservesOutside_of_same _ s _ rfl rfl
    · have hb := eq_false_of_ne_true hskip
      obtain ⟨hdl, _⟩ := download_file_ok env item_name note_id folder_id app_type
        s.fs (lp ++ [normName item_name]) henv
      rw [syncFile_fetch_success app_type folder_id lp item_name note_id ut env s _ hb hdl]
      constructor
      · intro p hp
        exact pathExists_writeFile_mono _ _ _ p hp
      · intro id hid
        have hne : id ≠ remoteIdent app_type folder_id note_id item_name := by
          simp [filesOfItem] at hid
          exact hid
        exact ledgerLookup_record_ne s.ledger _ note_id ut _ _ id hne

theorem preserves_items (app_type folder_id : String) (lp : Path)
    (items : List Item) (s : SyncState)
    (hok : ∀ f ∈ filesOfItems app_type folder_id lp items, f.env.ok = true) :
    preservesOutside
      ((filesOfItems app_type folder_id lp items).map FileSpec.ident)
      s (syncItems app_type folder_id lp items s) := by
  cases items with
  | nil => exact preservesOutside_refl _ s
  | cons it rest =>
    have hokA : ∀ f ∈ filesOfItem app_type folder_id lp it, f.env.ok = true :=
      fun f hf => hok f (by simp [filesOfItems, hf])
    have hokB : ∀ f ∈ filesOfItems app_type folder_id lp rest, f.env.ok = true :=
      fun f hf => hok f (by simp [filesOfItems, hf])
    have h1 := preservesOutside_mono _
      ((filesOfItems app_type folder_id lp (it :: rest)).map FileSpec.ident) s _
      (fun x hx => by simp only [filesOfItems, List.map_append, List.mem_append]
                      exact Or.inl hx)
      (preserves_item app_type folder_id lp it s hokA)
    have h2 := preservesOutside_mono _
      ((filesOfItems app_type folder_id lp (it :: rest)).map FileSpec.ident) _ _
      (fun x hx => by simp only [filesOfItems, List.map_append, List.mem_append]
                      exact Or.inr hx)
      (preserves_items app_type folder_id lp rest
        (syncItem app_type folder_id lp it s) hokB)
    have hcomb := preservesOutside_trans _ s _ _ h1 h2
    simpa [syncItems] using hcomb

end

mutual

theorem estab_item (app_type folder_id : String) (lp : Path) (it : Item)
    (s : SyncState)
    (hok : ∀ f ∈ filesOfItem app_type folder_id lp it, f.env.ok = true)
    (hnd : ((filesOfItem app_type folder_id lp it).map FileSpec.ident).Nodup) :
    ∀ f ∈ filesOfItem app_type folder_id lp it,
      fileSynced (syncItem app_type folder_id lp it s) f := by
  cases it with
  | folder item_name note_id ut children =>
    have hrec := estab_items app_type note_id (lp ++ [item_name]) children
      { fs := (s.fs.mkdirAll (lp ++ [item_name])),
        ledger := s.ledger,
        stats := { s.stats with folders := s.stats.folders + 1 },
        fetchLog := s.fetchLog,
        listLog := s.listLog ++ [(app_type, item_name, note_id)] }
      (by simpa [filesOfItem] using hok)
      (by simpa [filesOfItem] using hnd)
    simpa [syncItem, filesOfItem] using hrec
  | file item_name note_id ut env =>
    intro f hf
    have hf' : f = { ident := remoteIdent app_type folder_id note_id item_name,
                     ut := ut, dst := lp ++ [normName item_name], env := env } := by
      simpa [filesOfItem] using hf
    subst hf'
    have henv : env.ok = true := by
      have := hok { ident := remoteIdent app_type folder_id note_id item_name,
                    ut := ut, dst := lp ++ [normName item_name], env := env }
      simp [filesOfItem] at this
      exact this
    show fileSynced (syncFile app_type folder_id lp item_name note_id ut env s) _
    by_cases hskip :
        (is_file_synced s.ledger (remoteIdent app_type folder_id note_id item_name) ut
          && s.fs.pathExists (lp ++ [normName item_name])) = true
    · rw [syncFile_skip app_type folder_id lp item_name note_id ut env s hskip]
      rw [Bool.and_eq_true] at hskip
      exact ⟨hskip.1, hskip.2⟩
    · have hb := eq_false_of_ne_true hskip
      obtain ⟨hdl, _⟩ := download_file_ok env item_name note_id folder_id app_type
        s.fs (lp ++ [normName item_name]) henv
      rw [syncFile_fetch_success app_type folder_id lp item_name note_id ut env s _ hb hdl]
      constructor
      · show is_file_synced (record_sync s.ledger _ note_id ut _ _) _ ut = true
        rw [is_file_synced_iff]
        exact ⟨_, ledgerLookup_record_self s.ledger _ note_id ut _ _, le_refl ut⟩
      · exact pathExists_writeFile_self _ _ _

theorem estab_items (app_type folder_id : String) (lp : Path)
    (items : List Item) (s : SyncState)
    (hok : ∀ f ∈ filesOfItems app_type folder_id lp items, f.env.ok = true)
    (hnd : ((filesOfItems app_type folder_id lp items).map FileSpec.ident).Nodup) :
    ∀ f ∈ filesOfItems app_type folder_id lp items,
      fileSynced (syncItems app_type folder_id lp items s) f := by
  cases items with
  | nil => intro f hf; simp [filesOfItems] at hf
  | cons it rest =>
    have hokA : ∀ f ∈ filesOfItem app_type folder_id lp it, f.env.ok = true :=
      fun f hf => hok f (by simp [filesOfItems, hf])
    have hokB : ∀ f ∈ filesOfItems app_type folder_id lp rest, f.env.ok = true :=
      fun f hf => hok f (by simp [filesOfItems, hf])
    have hnd' : (((filesOfItem app_type folder_id lp it).map FileSpec.ident) ++
        ((filesOfItems app_type folder_id lp rest).map FileSpec.ident)).Nodup := by
      simpa [filesOfItems] using hnd
    rw [List.nodup_append] at hnd'
    intro f hf
    have hf' : f ∈ filesOfItem app_type folder_id lp it ∨
        f ∈ filesOfItems app_type folder_id lp rest := by
      simpa [filesOfItems] using hf
    show fileSynced
      (syncItems app_type folder_id lp rest (syncItem app_type folder_id lp it s)) f
    rcases hf' with hA | hB
    · have h1 := estab_item app_type folder_id lp it s hokA hnd'.1 f hA
      have hpres := preserves_items app_type folder_id lp rest
        (syncItem app_type folder_id lp it s) hokB
      have hnotin : f.ident ∉
          (filesOfItems app_type folder_id lp rest).map FileSpec.ident := by
        exact hnd'.2.2 (List.mem_map_of_mem FileSpec.ident hA)
      exact fileSynced_of_preserves _ _ _ f hpres hnotin h1
    · exact estab_items app_type folder_id lp rest
        (syncItem app_type folder_id lp it s) hokB hnd'.2.1 f hB

end

mutual

theorem skiprun_item (app_type folder_id : String) (lp : Path) (it : Item)
    (s : SyncState)
    (h : ∀ f ∈ filesOfItem app_type folder_id lp it, fileSynced s f) :
    (syncItem app_type folder_id lp it s).ledger = s.ledger ∧
    (syncItem app_type folder_id lp it s).fs.files = s.fs.files ∧
    (syncItem app_type folder_id lp it s).fetchLog = s.fetchLog ∧
    (syncItem app_type folder_id lp it s).stats.downloaded = s.stats.downloaded ∧
    (syncItem app_type folder_id lp it s).stats.failed = s.stats.failed ∧
    (syncItem app_type folder_id lp it s).stats.skipped =
      s.stats.skipped + (filesOfItem app_type folder_id lp it).length := by
  cases it with
  | folder item_name note_id ut children =>
    have h' : ∀ f ∈ filesOfItems app_type note_id (lp ++ [item_name]) children,
        fileSynced
          { fs := (s.fs.mkdirAll (lp ++ [item_name])),
            ledger := s.ledger,
            stats := { s.stats with folders := s.stats.folders + 1 },
            fetchLog := s.fetchLog,
            listLog := s.listLog ++ [(app_type, item_name, note_id)] } f := by
      intro f hf
      exact fileSynced_congr s _ f rfl rfl (h f (by simpa [filesOfItem] using hf))
    have hrec := skiprun_items app_type note_id (lp ++ [item_name]) children
      { fs := (s.fs.mkdirAll (lp ++ [item_name])),
        ledger := s.ledger,
        stats := { s.stats with folders := s.stats.folders + 1 },
        fetchLog := s.fetchLog,
        listLog := s.listLog ++ [(app_type, item_name, note_id)] } h'
    simpa [syncItem, filesOfItem] using hrec
  | file item_name note_id ut env =>
    have hsynced := h { ident := remoteIdent app_type folder_id note_id item_name,
                        ut := ut, dst := lp ++ [normName item_name], env := env }
      (by simp [filesOfItem])
    have hskip :
        (is_file_synced s.ledger (remoteIdent app_type folder_id note_id item_name) ut
          && s.fs.pathExists (lp ++ [normName item_name])) = true := by
      rw [Bool.and_eq_true]
      exact ⟨hsynced.1, hsynced.2⟩
    show _ ∧ _
    rw [show syncItem app_type folder_id lp (.file item_name note_id ut env) s =
        syncFile app_type folder_id lp item_name note_id ut env s from rfl,
      syncFile_skip app_type folder_id lp item_name note_id ut env s hskip]
    simp [filesOfItem]

theorem skiprun_items (app_type folder_id : String) (lp : Path)
    (items : List Item) (s : SyncState)
    (h : ∀ f ∈ filesOfItems app_type folder_id lp items, fileSynced s f) :
    (syncItems app_type folder_id lp items s).ledger = s.ledger ∧
    (syncItems app_type folder_id lp items s).fs.files = s.fs.files ∧
    (syncItems app_type folder_id lp items s).fetchLog = s.fetchLog ∧
    (syncItems app_type folder_id lp items s).stats.downloaded = s.stats.downloaded ∧
    (syncItems app_type folder_id lp items s).stats.failed = s.stats.failed ∧
    (syncItems app_type folder_id lp items s).stats.skipped =
      s.stats.skipped + (filesOfItems app_type folder_id lp items).length := by
  cases items with
  | nil => simp [syncItems, filesOfItems]
  | cons it rest =>
    have hA : ∀ f ∈ filesOfItem app_type folder_id lp it, fileSynced s f :=
      fun f hf => h f (by simp [filesOfItems, hf])
    have h1 := skiprun_item app_type folder_id lp it s hA
    have hB : ∀ f ∈ filesOfItems app_type folder_id lp rest,
        fileSynced (syncItem app_type folder_id lp it s) f := by
      intro f hf
      exact fileSynced_congr s _ f h1.1 h1.2.1
        (h f (by simp [filesOfItems, hf]))
    have h2 := skiprun_items app_type folder_id lp rest
      (syncItem app_type folder_id lp it s) hB
    rw [show syncItems app_type folder_id lp (it :: rest) s =
        syncItems app_type folder_id lp rest
          (syncItem app_type folder_id lp it s) from rfl]
    refine ⟨h2.1.trans h1.1, h2.2.1.trans h1.2.1, h2.2.2.1.trans h1.2.2.1,
      h2.2.2.2.1.trans h1.2.2.2.1, h2.2.2.2.2.1.trans h1.2.2.2.2.1, ?_⟩
    rw [h2.2.2.2.2.2, h1.2.2.2.2.2]
    simp [filesOfItems]
    omega

end

/-- Helper: the full effect of a zero-byte (status-200) fetch at the
per-file step, shared by the zero-byte claims. -/
theorem syncFile_zero_byte (app_type folder_id : String) (lp : Path)
    (item_name note_id : String) (ut : Nat) (env : FetchEnv)
    (chunks : List Bytes) (s : SyncState)
    (h1 : resolveStepFails env = false)
    (h2 : env.transfer = .resp 200 chunks)
    (h3 : chunks.flatten = [])
    (h4 : env.writeRaises = false)
    (h5 : (is_file_synced s.ledger (remoteIdent app_type folder_id note_id item_name) ut
        && s.fs.pathExists (lp ++ [normName item_name])) = false) :
    (download_file env item_name note_id folder_id app_type s.fs
      (lp ++ [normName item_name])).1 = false ∧
    (syncItem app_type folder_id lp (.file item_name note_id ut env) s).fs.pathExists
      (lp ++ [normName item_name]) = false ∧
    (syncItem app_type folder_id lp (.file item_name note_id ut env) s).ledger =
      s.ledger ∧
    (syncItem app_type folder_id lp (.file item_name note_id ut env) s).stats.failed =
      s.stats.failed + 1 := by
  have hdl := download_file_zero env item_name note_id folder_id app_type s.fs
    (lp ++ [normName item_name]) chunks h1 h2 h3 h4
  have hfail := syncFile_fetch_fail app_type folder_id lp item_name note_id ut env s
    h5 (by rw [hdl])
  refine ⟨by rw [hdl], ?_, ?_, ?_⟩
  · rw [show syncItem app_type folder_id lp (.file item_name note_id ut env) s =
        syncFile app_type folder_id lp item_name note_id ut env s from rfl, hfail]
    show ((download_file env item_name note_id folder_id app_type s.fs
      (lp ++ [normName item_name])).2).pathExists (lp ++ [normName item_name]) = false
    rw [hdl]
    exact pathExists_removeFile_self _ _
  · rw [show syncItem app_type folder_id lp (.file item_name note_id ut env) s =
        syncFile app_type folder_id lp item_name note_id ut env s from rfl, hfail]
  · rw [show syncItem app_type folder_id lp (.file item_name note_id ut env) s =
        syncFile app_type folder_id lp item_name note_id ut env s from rfl, hfail]

/-! Claim theorems. -/

/-- C5: for every input to the directory-listing operation, a transport
error, malformed body, non-success HTTP status or non-success result code
yields the empty sequence (and, the model being a total function, no fault
reaches the caller); a non-empty sequence arises only from a response with
status 200 and code 200 carrying that very list. -/
theorem viwoods_c5 {entry : Type} (o : ListOutcome entry) (st : Nat)
    (body : Option (Option Int × Option (List entry)))
    (c : Option Int) (d : Option (List entry)) :
    (list_folder (ListOutcome.err : ListOutcome entry) = []) ∧
    (st ≠ 200 → list_folder (ListOutcome.resp st body) = []) ∧
    (list_folder (@ListOutcome.resp entry st none) = []) ∧
    (c ≠ some 200 → list_folder (ListOutcome.resp st (some (c, d))) = []) ∧
    (list_folder o ≠ [] →
      ∃ data, o = ListOutcome.resp 200 (some (some 200, some data)) ∧
        list_folder o = data) := by
  refine ⟨rfl, ?_, ?_, ?_, ?_⟩
  · intro h
    simp [list_folder, h]
  · simp [list_folder]
  · intro h
    simp [list_folder, h]
  · intro h
    cases o with
    | err => simp [list_folder] at h
    | resp st' body' =>
      by_cases h1 : st' = 200
      · subst h1
        cases body' with
        | none => simp [list_folder] at h
        | some cd =>
          obtain ⟨c', d'⟩ := cd
          by_cases h2 : c' = some 200
          · subst h2
            cases d' with
            | none => simp [list_folder] at h
            | some data => exact ⟨data, rfl, by simp [list_folder]⟩
          · simp [list_folder, h2] at h
      · simp [list_folder, h1] at h

/-- C5 witness: a status-500 response and an error outcome list as empty,
and a successful listing returns exactly its payload. -/
theorem viwoods_c5_witness :
    list_folder (@ListOutcome.resp Nat 500 none) = [] ∧
    (∃ data, (@ListOutcome.resp Nat 200 (some (some 200, some [3]))) =
        ListOutcome.resp 200 (some (some 200, some data)) ∧
      list_folder (@ListOutcome.resp Nat 200 (some (some 200, some [3]))) = data) :=
  ⟨(viwoods_c5 (ListOutcome.err : ListOutcome Nat) 500
      none none none).2.1 (by decide),
   (viwoods_c5 (@ListOutcome.resp Nat 200 (some (some 200, some [3])))
      500 none none none).2.2.2.2 (by decide)⟩

/-- C6: every exception raised during the resolve step, the transfer step
or the local write (modelled by the `err` outcomes and the `writeRaises`
flag) is converted inside `download_file` to a `false` return value. -/
theorem viwoods_c6 (env : FetchEnv) (n nid fid ap : String) (fs : FS)
    (p : Path)
    (h : env.resolve = .err ∨ env.transfer = .err ∨ env.writeRaises = true) :
    (download_file env n nid fid ap fs p).1 = false :=
  download_file_exc env n nid fid ap fs p h

/-- C6 witness: a raising resolve request yields a `false` result. -/
theorem viwoods_c6_witness :
    (download_file envResolveErr "ideas" "N1" "F" "A" fsEmpty
      ["d", "ideas.note"]).1 = false :=
  viwoods_c6 envResolveErr "ideas" "N1" "F" "A" fsEmpty ["d", "ideas.note"]
    (Or.inl rfl)

/-- C10: when the resolve step fails (exception, bad status, bad code, or
missing/non-string/empty path) or the transfer response has a non-success
status, `download_file` returns `false` with the filesystem exactly as it
was: no directory created, no byte written. -/
theorem viwoods_c10 (env : FetchEnv) (n nid fid ap : String) (fs : FS)
    (p : Path)
    (h : resolveStepFails env = true ∨ transferBadStatus env = true) :
    download_file env n nid fid ap fs p = (false, fs) := by
  rcases h with h | h
  · exact download_file_resolveFail env n nid fid ap fs p h
  · exact download_file_transferBad env n nid fid ap fs p h

/-- C10 witness: with a failing resolve, the filesystem value is returned
untouched. -/
theorem viwoods_c10_witness :
    download_file envResolveErr "ideas" "N1" "F" "A" fsExist
      ["d", "ideas.note"] = (false, fsExist) :=
  viwoods_c10 envResolveErr "ideas" "N1" "F" "A" fsExist ["d", "ideas.note"]
    (Or.inl (by decide))

/-- C1: the traversal classifies a file entry as a skip — skipped counter
incremented, state otherwise untouched, no fetch call — exactly when the
ledger holds a record for the composite remote path with stored update
time at least the entry's AND the mirror file exists; a missing record
makes `is_file_synced` false; and whenever the condition fails the fetch
is attempted (the fetch log grows, nothing is skipped). -/
theorem viwoods_c1 (app_type folder_id : String) (lp : Path)
    (item_name note_id : String) (ut : Nat) (env : FetchEnv) (s : SyncState) :
    (is_file_synced s.ledger (remoteIdent app_type folder_id note_id item_name) ut = true ↔
      ∃ r, ledgerLookup s.ledger (remoteIdent app_type folder_id note_id item_name) = some r ∧
        ut ≤ r.update_time) ∧
    (ledgerLookup s.ledger (remoteIdent app_type folder_id note_id item_name) = none →
      is_file_synced s.ledger (remoteIdent app_type folder_id note_id item_name) ut = false) ∧
    ((is_file_synced s.ledger (remoteIdent app_type folder_id note_id item_name) ut
        && s.fs.pathExists (lp ++ [normName item_name])) = true →
      syncItem app_type folder_id lp (.file item_name note_id ut env) s =
        { s with stats := { s.stats with skipped := s.stats.skipped + 1 } }) ∧
    ((is_file_synced s.ledger (remoteIdent app_type folder_id note_id item_name) ut
        && s.fs.pathExists (lp ++ [normName item_name])) = false →
      (syncItem app_type folder_id lp (.file item_name note_id ut env) s).fetchLog =
        s.fetchLog ++ [remoteIdent app_type folder_id note_id item_name] ∧
      (syncItem app_type folder_id lp (.file item_name note_id ut env) s).stats.skipped =
        s.stats.skipped) := by
  refine ⟨is_file_synced_iff s.ledger _ ut,
    is_file_synced_none s.ledger _ ut, ?_, ?_⟩
  · intro h
    exact syncFile_skip app_type folder_id lp item_name note_id ut env s h
  · intro h
    rcases hre : download_file env item_name note_id folder_id app_type s.fs
      (lp ++ [normName item_name]) with ⟨b, fs'⟩
    cases b
    · rw [show syncItem app_type folder_id lp (.file item_name note_id ut env) s =
          syncFile app_type folder_id lp item_name note_id ut env s from rfl,
        syncFile_fetch_fail app_type folder_id lp item_name note_id ut env s h
          (by rw [hre])]
      exact ⟨rfl, rfl⟩
    · rw [show syncItem app_type folder_id lp (.file item_name note_id ut env) s =
          syncFile app_type folder_id lp item_name note_id ut env s from rfl,
        syncFile_fetch_success app_type folder_id lp item_name note_id ut env s fs' h hre]
      exact ⟨rfl, rfl⟩

/-- C1 witness: on an empty ledger the file is not synced, so a fetch is
attempted and logged and nothing is skipped. -/
theorem viwoods_c1_witness :
    (syncItem "A" "F" ["d"] (.file "ideas" "N1" 5 envResolveErr) stEmpty).fetchLog =
      stEmpty.fetchLog ++ [remoteIdent "A" "F" "N1" "ideas"] ∧
    (syncItem "A" "F" ["d"] (.file "ideas" "N1" 5 envResolveErr) stEmpty).stats.skipped =
      stEmpty.stats.skipped :=
  (viwoods_c1 "A" "F" ["d"] "ideas" "N1" 5 envResolveErr stEmpty).2.2.2 (by decide)

/-- C3: a fetch whose streamed transfer reports status 200 but yields zero
bytes returns `false`, leaves no file at the destination (the write is
undone by the unlink), leaves the ledger exactly unchanged (`record_sync`
is never reached) and counts one failure. -/
theorem viwoods_c3 (app_type folder_id : String) (lp : Path)
    (item_name note_id : String) (ut : Nat) (env : FetchEnv)
    (chunks : List Bytes) (s : SyncState)
    (h1 : resolveStepFails env = false)
    (h2 : env.transfer = .resp 200 chunks)
    (h3 : chunks.flatten = [])
    (h4 : env.writeRaises = false)
    (h5 : (is_file_synced s.ledger (remoteIdent app_type folder_id note_id item_name) ut
        && s.fs.pathExists (lp ++ [normName item_name])) = false) :
    (download_file env item_name note_id folder_id app_type s.fs
      (lp ++ [normName item_name])).1 = false ∧
    (syncItem app_type folder_id lp (.file item_name note_id ut env) s).fs.pathExists
      (lp ++ [normName item_name]) = false ∧
    (syncItem app_type folder_id lp (.file item_name note_id ut env) s).ledger =
      s.ledger ∧
    (syncItem app_type folder_id lp (.file item_name note_id ut env) s).stats.failed =
      s.stats.failed + 1 :=
  syncFile_zero_byte app_type folder_id lp item_name note_id ut env chunks s
    h1 h2 h3 h4 h5

/-- C3 witness: an empty-but-200 transfer on a fresh state fails, leaves no
destination file, writes no ledger row and counts one failure. -/
theorem viwoods_c3_witness :
    (download_file envZeroByte "ideas" "N1" "F" "A" stEmpty.fs
      (["d"] ++ [normName "ideas"])).1 = false ∧
    (syncItem "A" "F" ["d"] (.file "ideas" "N1" 5 envZeroByte) stEmpty).fs.pathExists
      (["d"] ++ [normName "ideas"]) = false ∧
    (syncItem "A" "F" ["d"] (.file "ideas" "N1" 5 envZeroByte) stEmpty).ledger =
      stEmpty.ledger ∧
    (syncItem "A" "F" ["d"] (.file "ideas" "N1" 5 envZeroByte) stEmpty).stats.failed =
      stEmpty.stats.failed + 1 :=
  viwoods_c3 "A" "F" ["d"] "ideas" "N1" 5 envZeroByte [[], []] stEmpty
    (by decide) (by decide) (by decide) (by decide) (by decide)

/-- C4: whenever a file's fetch fails for any reason (the download call
returns `false`), the traversal counts one failure and leaves the ledger —
in particular any prior record for that remote path — exactly unchanged,
and neither the downloaded nor the skipped counter moves. -/
theorem viwoods_c4 (app_type folder_id : String) (lp : Path)
    (item_name note_id : String) (ut : Nat) (env : FetchEnv) (s : SyncState)
    (h : (is_file_synced s.ledger (remoteIdent app_type folder_id note_id item_name) ut
        && s.fs.pathExists (lp ++ [normName item_name])) = false)
    (hdl : (download_file env item_name note_id folder_id app_type s.fs
        (lp ++ [normName item_name])).1 = false) :
    (syncItem app_type folder_id lp (.file item_name note_id ut env) s).stats.failed =
      s.stats.failed + 1 ∧
    (syncItem app_type folder_id lp (.file item_name note_id ut env) s).ledger =
      s.ledger ∧
    (syncItem app_type folder_id lp (.file item_name note_id ut env) s).stats.downloaded =
      s.stats.downloaded ∧
    (syncItem app_type folder_id lp (.file item_name note_id ut env) s).stats.skipped =
      s.stats.skipped := by
  rw [show syncItem app_type folder_id lp (.file item_name note_id ut env) s =
      syncFile app_type folder_id lp item_name note_id ut env s from rfl,
    syncFile_fetch_fail app_type folder_id lp item_name note_id ut env s h hdl]
  exact ⟨rfl, rfl, rfl, rfl⟩

/-- C4 witness: a failing resolve on a state with a stale ledger record
counts one failure and leaves the stale record in place. -/
theorem viwoods_c4_witness :
    (syncItem "A" "F" ["d"] (.file "ideas" "N1" 5 envResolveErr) stExist).stats.failed =
      stExist.stats.failed + 1 ∧
    (syncItem "A" "F" ["d"] (.file "ideas" "N1" 5 envResolveErr) stExist).ledger =
      stExist.ledger ∧
    (syncItem "A" "F" ["d"] (.file "ideas" "N1" 5 envResolveErr) stExist).stats.downloaded =
      stExist.stats.downloaded ∧
    (syncItem "A" "F" ["d"] (.file "ideas" "N1" 5 envResolveErr) stExist).stats.skipped =
      stExist.stats.skipped :=
  viwoods_c4 "A" "F" ["d"] "ideas" "N1" 5 envResolveErr stExist
    (by decide) (by decide)

/-- C9: when the destination file already exists from a previous sync but
the entry is no longer up to date, a re-fetch whose transfer reports 200
with zero bytes overwrites and then deletes the file: afterwards the
previously synced mirror file no longer exists, while the ledger — its old
record included — is exactly unchanged. -/
theorem viwoods_c9 (app_type folder_id : String) (lp : Path)
    (item_name note_id : String) (ut : Nat) (env : FetchEnv)
    (chunks : List Bytes) (s : SyncState)
    (_hexist : s.fs.pathExists (lp ++ [normName item_name]) = true)
    (hstale : is_file_synced s.ledger
      (remoteIdent app_type folder_id note_id item_name) ut = false)
    (h1 : resolveStepFails env = false)
    (h2 : env.transfer = .resp 200 chunks)
    (h3 : chunks.flatten = [])
    (h4 : env.writeRaises = false) :
    (syncItem app_type folder_id lp (.file item_name note_id ut env) s).fs.pathExists
      (lp ++ [normName item_name]) = false ∧
    (syncItem app_type folder_id lp (.file item_name note_id ut env) s).ledger =
      s.ledger := by
  have h5 : (is_file_synced s.ledger (remoteIdent app_type folder_id note_id item_name) ut
      && s.fs.pathExists (lp ++ [normName item_name])) = false := by
    rw [hstale]
    rfl
  have h := syncFile_zero_byte app_type folder_id lp item_name note_id ut env chunks s
    h1 h2 h3 h4 h5
  exact ⟨h.2.1, h.2.2.1⟩

/-- C9 witness: a mirror file from a previous sync plus a stale ledger
record; the zero-byte re-fetch deletes the file and keeps the record. -/
theorem viwoods_c9_witness :
    (syncItem "A" "F" ["d"] (.file "ideas" "N1" 5 envZeroByte) stExist).fs.pathExists
      (["d"] ++ [normName "ideas"]) = false ∧
    (syncItem "A" "F" ["d"] (.file "ideas" "N1" 5 envZeroByte) stExist).ledger =
      stExist.ledger :=
  viwoods_c9 "A" "F" ["d"] "ideas" "N1" 5 envZeroByte [[], []] stExist
    (by decide) (by decide) (by decide) (by decide) (by decide) (by decide)

/-- Helper: the navigation loop only appends to the listing log; the
filesystem, ledger, counters and fetch log pass through untouched. -/
theorem navLoop_frame (t : String) (segs : List String) (fid : Option String)
    (items : List Item) (s : SyncState) :
    (navLoop t segs fid items s).2.fs = s.fs ∧
    (navLoop t segs fid items s).2.ledger = s.ledger ∧
    (navLoop t segs fid items s).2.stats = s.stats ∧
    (navLoop t segs fid items s).2.fetchLog = s.fetchLog := by
  induction segs generalizing fid items s with
  | nil => exact ⟨rfl, rfl, rfl, rfl⟩
  | cons seg rest ih =>
    cases hf : findFolder items seg with
    | none => simp [navLoop, hf]
    | some pr =>
      obtain ⟨nid, ch⟩ := pr
      simp only [navLoop, hf]
      exact ih (some nid) ch _

/-- C7: in full-sync mode without the include-all flag, a top-level entry
whose name is outside the allow-list `Paper, Daily, Meeting, Memo` is
skipped entirely — the run is identical to the run without that entry, so
it is not descended into, moves no counter and creates no directory —
while an entry on the list has its subtree synchronized via
`sync_folder_recursive` starting at the empty folder id. -/
theorem viwoods_c7 (local_dir : Path) (r : RootItem) (rest roots : List RootItem)
    (s : SyncState) :
    (sync_all false local_dir roots s =
      syncRoots false local_dir roots
        { s with listLog := s.listLog ++ [("root", "Home", "")] }) ∧
    (r.fileName ∉ default_folders →
      syncRoots false local_dir (r :: rest) s = syncRoots false local_dir rest s) ∧
    (r.fileName ∈ default_folders →
      syncRoots false local_dir (r :: rest) s =
        syncRoots false local_dir rest
          (sync_folder_recursive (r.appType.getD "APP_PAPER") r.fileName ""
            (local_dir ++ [r.fileName]) r.items s)) := by
  refine ⟨rfl, ?_, ?_⟩
  · intro h
    have hc : default_folders.contains r.fileName = false := by
      simpa using h
    simp [syncRoots, hc, h]
  · intro h
    have hc : default_folders.contains r.fileName = true := by
      simpa using h
    simp [syncRoots, hc, h]

/-- C7 witness: with root listing `Paper, Learning`, the `Learning` entry
is dropped from the run while `Paper` is descended into. -/
theorem viwoods_c7_witness :
    (syncRoots false ["v"] (learningRoot :: []) stEmpty =
      syncRoots false ["v"] [] stEmpty) ∧
    (syncRoots false ["v"] (paperRoot :: [learningRoot]) stEmpty =
      syncRoots false ["v"] [learningRoot]
        (sync_folder_recursive (paperRoot.appType.getD "APP_PAPER")
          paperRoot.fileName "" (["v"] ++ [paperRoot.fileName])
          paperRoot.items stEmpty)) :=
  ⟨(viwoods_c7 ["v"] learningRoot [] [] stEmpty).2.1 (by decide),
   (viwoods_c7 ["v"] paperRoot [learningRoot] [] stEmpty).2.2 (by decide)⟩

/-- C8: scoped sync aborts — state unchanged except the logged listings,
so zero fetches — when the root name is not found among the top-level
entries, and when a later segment is missing; with the second segment
missing, exactly one folder listing (the first segment's) was requested,
so no listing is ever requested for a third segment. -/
theorem viwoods_c8 (roots : List RootItem) (local_dir : Path)
    (folder_path : String) (s : SyncState) (a b : String) (rest : List String)
    (hsplit : splitSlash folder_path = a :: b :: rest) :
    (roots.find? (fun r => r.fileName == a) = none →
      sync_folder roots local_dir folder_path s =
        { s with listLog := s.listLog ++ [("root", "Home", "")] }) ∧
    (∀ root t, roots.find? (fun r => r.fileName == a) = some root →
      root.appType = some t → t ≠ "" →
      findFolder root.items b = none →
      sync_folder roots local_dir folder_path s =
        { s with listLog := s.listLog ++ [("root", "Home", ""), (t, a, "")] }) ∧
    (∀ root t, roots.find? (fun r => r.fileName == a) = some root →
      root.appType = some t → t ≠ "" →
      (∀ st : SyncState, (navLoop t (b :: rest) none root.items st).1 = none) →
      (sync_folder roots local_dir folder_path s).fetchLog = s.fetchLog ∧
      (sync_folder roots local_dir folder_path s).stats = s.stats ∧
      (sync_folder roots local_dir folder_path s).fs = s.fs ∧
      (sync_folder roots local_dir folder_path s).ledger = s.ledger) := by
  refine ⟨?_, ?_, ?_⟩
  · intro hfind
    simp only [sync_folder, hsplit, hfind]
  · intro root t hfind happ ht hff
    simp only [sync_folder, hsplit, hfind, happ]
    rw [if_neg ht]
    simp only [navLoop, hff]
    simp
  · intro root t hfind happ ht hnav
    simp only [sync_folder, hsplit, hfind, happ]
    rw [if_neg ht]
    rcases hres : navLoop t (b :: rest) none root.items
      { s with listLog := s.listLog ++ [("root", "Home", "")] ++ [(t, a, "")] }
      with ⟨o, s2⟩
    have ho : o = none := by
      have hn := hnav { s with listLog := s.listLog ++ [("root", "Home", "")] ++ [(t, a, "")] }
      rw [hres] at hn
      exact hn
    subst ho
    have hfr := navLoop_frame t (b :: rest) none root.items
      { s with listLog := s.listLog ++ [("root", "Home", "")] ++ [(t, a, "")] }
    rw [hres] at hfr
    exact ⟨hfr.2.2.2, hfr.2.2.1, hfr.1, hfr.2.1⟩

/-- C8 witness: the path `Paper/Nope/Deep` whose second segment does not
exist aborts after the single first-segment listing, with fetch log,
counters, filesystem and ledger untouched. -/
theorem viwoods_c8_witness :
    sync_folder rootsW ["v"] "Paper/Nope/Deep" stEmpty =
      { stEmpty with listLog :=
          stEmpty.listLog ++ [("root", "Home", ""), ("APP_PAPER", "Paper", "")] } :=
  (viwoods_c8 rootsW ["v"] "Paper/Nope/Deep" stEmpty "Paper" "Nope" ["Deep"]
      (by decide)).2.1
    { fileName := "Paper", appType := some "APP_PAPER",
      items := [.folder "Papers" "F1" 0 []] }
    "APP_PAPER" rfl rfl (by decide) rfl

/-- C2: running a sync and then running it again against the identical
remote tree, with no local changes in between, gives a second run with
zero downloads (and zero failures): every file is a skip, because each
successful first-run fetch recorded the entry's update time and left the
mirror file on disk.  Hypotheses: every fetch of the first run succeeds
(the claim's "successful first-run fetch") and the files' composite remote
identities are pairwise distinct. -/
theorem viwoods_c2 (app_type folder_name folder_id : String) (lp : Path)
    (items : List Item) (fs : FS) (led : Ledger)
    (hok : ∀ f ∈ filesOfItems app_type folder_id lp items, f.env.ok = true)
    (hnd : ((filesOfItems app_type folder_id lp items).map FileSpec.ident).Nodup) :
    (runSync app_type folder_name folder_id lp items
        (runSync app_type folder_name folder_id lp items fs led).fs
        (runSync app_type folder_name folder_id lp items fs led).ledger).stats.downloaded = 0 ∧
    (runSync app_type folder_name folder_id lp items
        (runSync app_type folder_name folder_id lp items fs led).fs
        (runSync app_type folder_name folder_id lp items fs led).ledger).stats.failed = 0 ∧
    (runSync app_type folder_name folder_id lp items
        (runSync app_type folder_name folder_id lp items fs led).fs
        (runSync app_type folder_name folder_id lp items fs led).ledger).stats.skipped =
      (filesOfItems app_type folder_id lp items).length ∧
    (runSync app_type folder_name folder_id lp items
        (runSync app_type folder_name folder_id lp items fs led).fs
        (runSync app_type folder_name folder_id lp items fs led).ledger).fetchLog = [] ∧
    (runSync app_type folder_name folder_id lp items
        (runSync app_type folder_name folder_id lp items fs led).fs
        (runSync app_type folder_name folder_id lp items fs led).ledger).ledger =
      (runSync app_type folder_name folder_id lp items fs led).ledger := by
  have h1 : ∀ f ∈ filesOfItems app_type folder_id lp items,
      fileSynced (runSync app_type folder_name folder_id lp items fs led) f :=
    estab_items app_type folder_id lp items
      { fs := fs.mkdirAll lp, ledger := led, stats := ⟨0, 0, 0, 0⟩,
        fetchLog := [], listLog := [(app_type, folder_name, folder_id)] }
      hok hnd
  have hB : ∀ f ∈ filesOfItems app_type folder_id lp items,
      fileSynced
        { fs := (runSync app_type folder_name folder_id lp items fs led).fs.mkdirAll lp,
          ledger := (runSync app_type folder_name folder_id lp items fs led).ledger,
          stats := ⟨0, 0, 0, 0⟩, fetchLog := [],
          listLog := [(app_type, folder_name, folder_id)] } f := by
    intro f hf
    exact fileSynced_congr (runSync app_type folder_name folder_id lp items fs led)
      _ f rfl rfl (h1 f hf)
  have h2 := skiprun_items app_type folder_id lp items
    { fs := (runSync app_type folder_name folder_id lp items fs led).fs.mkdirAll lp,
      ledger := (runSync app_type folder_name folder_id lp items fs led).ledger,
      stats := ⟨0, 0, 0, 0⟩, fetchLog := [],
      listLog := [(app_type, folder_name, folder_id)] } hB
  exact ⟨h2.2.2.2.1, h2.2.2.2.2.1, by simpa using h2.2.2.2.2.2, h2.2.2.1, h2.1⟩

/-- C2 witness: a concrete tree with a subfolder file and a top-level file,
all fetches succeeding; the second run over the first run's filesystem and
ledger downloads nothing, fails nothing and skips both files. -/
theorem viwoods_c2_witness :
    (∀ f ∈ filesOfItems "APP_PAPER" "" ["Paper"] itemsW, f.env.ok = true) ∧
    ((filesOfItems "APP_PAPER" "" ["Paper"] itemsW).map FileSpec.ident).Nodup ∧
    ((runSync "APP_PAPER" "Paper" "" ["Paper"] itemsW
        (runSync "APP_PAPER" "Paper" "" ["Paper"] itemsW fsEmpty []).fs
        (runSync "APP_PAPER" "Paper" "" ["Paper"] itemsW fsEmpty []).ledger).stats.downloaded = 0 ∧
     (runSync "APP_PAPER" "Paper" "" ["Paper"] itemsW
        (runSync "APP_PAPER" "Paper" "" ["Paper"] itemsW fsEmpty []).fs
        (runSync "APP_PAPER" "Paper" "" ["Paper"] itemsW fsEmpty []).ledger).stats.failed = 0 ∧
     (runSync "APP_PAPER" "Paper" "" ["Paper"] itemsW
        (runSync "APP_PAPER" "Paper" "" ["Paper"] itemsW fsEmpty []).fs
        (runSync "APP_PAPER" "Paper" "" ["Paper"] itemsW fsEmpty []).ledger).stats.skipped =
       (filesOfItems "APP_PAPER" "" ["Paper"] itemsW).length ∧
     (runSync "APP_PAPER" "Paper" "" ["Paper"] itemsW
        (runSync "APP_PAPER" "Paper" "" ["Paper"] itemsW fsEmpty []).fs
        (runSync "APP_PAPER" "Paper" "" ["Paper"] itemsW fsEmpty []).ledger).fetchLog = [] ∧
     (runSync "APP_PAPER" "Paper" "" ["Paper"] itemsW
        (runSync "APP_PAPER" "Paper" "" ["Paper"] itemsW fsEmpty []).fs
        (runSync "APP_PAPER" "Paper" "" ["Paper"] itemsW fsEmpty []).ledger).ledger =
       (runSync "APP_PAPER" "Paper" "" ["Paper"] itemsW fsEmpty []).ledger) :=
  ⟨by decide, by decide,
   viwoods_c2 "APP_PAPER" "Paper" "" ["Paper"] itemsW fsEmpty []
     (by decide) (by decide)⟩

end Viwoods
